import Mathlib

/-!
Shallow embedding of the matching engine in `matching_engine.py`
(class `ExplainableMatchingEngine`), together with the data it consumes
(`models.py`, `schemas.py`).

Conventions of the embedding:
* Python floats are modelled by `ℚ`; integer database columns by `ℤ`.
* Database rows resolved through the session are modelled as already-loaded
  lists: a candidate carries its `(skill name, proficiency_level)` rows and a
  project carries its requirement rows.  An absent row is `Option.none`.
* Python dicts keyed by strings are association lists in insertion order;
  `dict.get(k, d)` is `dictGet`.
* `sorted(..., reverse=True)` (a stable sort) is `List.mergeSort` with the
  reversed comparison, which has the same stable-sort semantics.
* `round(x, 2)` and `round(x, 3)` are `round2` and `round3`; Python rounds
  half-to-even while `round` here rounds half-up, a difference only at exact
  half-ulp ties, which none of the verified statements exercises.
* `np.average(scores, weights)` is the weighted sum divided by the weight sum;
  numpy raises on a zero weight sum, while `ℚ` division by zero yields `0`,
  so statements that depend on the average carry a positivity hypothesis.
* `np.std` (population standard deviation) is irrational in general and no
  verified statement depends on its value, so it is passed as an abstract
  function parameter `std` to the cohort-metrics function.
* `matching_engine.py` omits the imports of `Skill` and `UUID`; the embedding
  models the evidently intended semantics of the queries written there.
-/

inductive Gender where
  | male
  | female
  | nonBinary
  | preferNotToSay
deriving DecidableEq

def Gender.value : Gender → String
  | .male => "male"
  | .female => "female"
  | .nonBinary => "non_binary"
  | .preferNotToSay => "prefer_not_to_say"

inductive SES where
  | low
  | medium
  | high
deriving DecidableEq

def SES.value : SES → String
  | .low => "low"
  | .medium => "medium"
  | .high => "high"

/-- `schemas.FairnessConfig` (pydantic model). -/
structure FairnessConfig where
  demographic_parity_threshold : ℚ := 0.8
  equal_opportunity_weight : ℚ := 0.75
  socioeconomic_boost : Bool := true
  gender_parity : Bool := true
  blind_screening : Bool := false
deriving DecidableEq

/-- A candidate record (`models.Candidate`) with its resolved
`CandidateSkill` rows as `(skill name, proficiency_level)` pairs.
Skill names are unique (`skills.name` is a unique column), so the
name-keyed lookup below coincides with the id-keyed lookup in the source. -/
structure Candidate where
  profs : List (String × ℤ)
  years_experience : ℤ
  gender : Option Gender
  ethnicity : Option String
  socioeconomic_status : Option SES
  is_active : Bool
deriving DecidableEq

/-- One required skill of a project: the `Skill` row joined with its
`project_skills` association row.  `required_level = none` models a missing
association row (source default 80); `weight = none` models an unresolvable
weight (source default 1.0). -/
structure Requirement where
  name : String
  required_level : Option ℤ
  weight : Option ℚ
deriving DecidableEq

/-- A project record (`models.Project`) with its resolved requirement rows.
`weights_config` is the JSON dict column, kept as an association list. -/
structure Project where
  required_skills : List Requirement
  weights_config : List (String × ℚ)
  fairness_config : FairnessConfig
deriving DecidableEq

/-- `d.get(k, default)` on a string-keyed Python dict. -/
def dictGet (d : List (String × ℚ)) (k : String) (dflt : ℚ) : ℚ :=
  ((d.find? (fun pr => pr.1 == k)).map (·.2)).getD dflt

/-- `d.get(k)` returning `None` when absent. -/
def dictFind (d : List (String × ℚ)) (k : String) : Option ℚ :=
  (d.find? (fun pr => pr.1 == k)).map (·.2)

/-- The candidate's `CandidateSkill` row for a skill, by name
(`db.query(CandidateSkill).filter(...).first()`). -/
def profOf (c : Candidate) (name : String) : Option ℤ :=
  (c.profs.find? (fun pr => pr.1 == name)).map (·.2)

/-- `_build_candidate_vector`: skill name → proficiency, absent → 0. -/
def build_candidate_vector (c : Candidate) (p : Project) : List (String × ℤ) :=
  p.required_skills.map (fun r => (r.name, (profOf c r.name).getD 0))

/-- `_build_requirement_vector`: skill name → required level, missing row → 80. -/
def build_requirement_vector (p : Project) : List (String × ℤ) :=
  p.required_skills.map (fun r => (r.name, r.required_level.getD 80))

/-- `vector.get(name, d)` on a skill vector. -/
def vecGet (v : List (String × ℤ)) (k : String) (dflt : ℤ) : ℤ :=
  ((v.find? (fun pr => pr.1 == k)).map (·.2)).getD dflt

/-- The requirement weight looked up by skill name in
`_calculate_technical_score`; unresolvable → 1.0. -/
def skillWeight (p : Project) (name : String) : ℚ :=
  (((p.required_skills.find? (fun r => r.name == name)).bind (·.weight)).getD 1)

/-- The per-skill normalized score of `_calculate_technical_score`:
`min(100, actual/required*100)` when `required > 0`, else `100 if actual>0 else 0`. -/
def skillScore (actual required : ℤ) : ℚ :=
  if 0 < required then min 100 ((actual : ℚ) / (required : ℚ) * 100)
  else if 0 < actual then 100 else 0

/-- The `(score, weight)` pairs accumulated by `_calculate_technical_score`,
in requirement order. -/
def technical_pairs (c : Candidate) (p : Project) : List (ℚ × ℚ) :=
  (build_requirement_vector p).map (fun sr =>
    (skillScore (vecGet (build_candidate_vector c p) sr.1 0) sr.2, skillWeight p sr.1))

/-- `_calculate_technical_score`: weighted mean of the per-skill scores,
0 when there are no required skills. -/
def calculate_technical_score (c : Candidate) (p : Project) : ℚ :=
  let prs := technical_pairs c p
  if prs.isEmpty then 0
  else ((prs.map (fun q => q.1 * q.2)).sum) / ((prs.map (·.2)).sum)

/-- `_get_skill_score`: the candidate's proficiency for the skill with the
given name, 0 when there is no such record. -/
def get_skill_score (c : Candidate) (name : String) : ℚ :=
  (((profOf c name).getD 0 : ℤ) : ℚ)

/-- `min(100, candidate.years_experience * 15)`. -/
def experience_score_of (c : Candidate) : ℚ :=
  min 100 ((c.years_experience : ℚ) * 15)

/-- `_apply_fairness_constraints`: the additive bonus and the ordered list of
mitigation messages.  The three rules accumulate in source order. -/
def apply_fairness_constraints (c : Candidate) (raw_score : ℚ)
    (config : FairnessConfig) : ℚ × List String :=
  let step1 : ℚ × List String :=
    if config.socioeconomic_boost then
      match c.socioeconomic_status with
      | some ses =>
        if ses.value == "low" then
          (3, ["Socioeconomic opportunity boost applied (+3%) for candidate from "
                ++ ses.value ++ " SES background"])
        else (0, [])
      | none => (0, [])
    else (0, [])
  let step2 : ℚ × List String :=
    if config.gender_parity then
      match c.gender with
      | some g =>
        if g.value == "female" || g.value == "non_binary" then
          (2, ["Gender parity adjustment (+2%) applied to promote diversity in "
                ++ g.value ++ " representation"])
        else (0, [])
      | none => (0, [])
    else (0, [])
  let step3 : ℚ × List String :=
    if c.years_experience < 3 ∧ 70 < raw_score then
      (1, ["Early career potential boost (+1%) for high-performing junior candidate"])
    else (0, [])
  (step1.1 + step2.1 + step3.1, step1.2 ++ step2.2 ++ step3.2)

/-- One entry of the skill-gap list (`schemas.SkillGap`). -/
structure SkillGap where
  skill : String
  required : ℤ
  actual : ℤ
  gap : ℤ
deriving DecidableEq

/-- The unsorted gap list built by the loop of `_calculate_skill_gaps`,
in requirement-enumeration order. -/
def pre_gaps (c : Candidate) (p : Project) : List SkillGap :=
  p.required_skills.filterMap (fun r =>
    if (profOf c r.name).getD 0 < r.required_level.getD 80 then
      some { skill := r.name, required := r.required_level.getD 80,
             actual := (profOf c r.name).getD 0,
             gap := r.required_level.getD 80 - (profOf c r.name).getD 0 }
    else none)

/-- The comparison of `sorted(gaps, key=lambda x: x.gap, reverse=True)`. -/
def gapGE (a b : SkillGap) : Bool := decide (b.gap ≤ a.gap)

/-- `_calculate_skill_gaps`: gap entries sorted by gap descending
(stable sort, as Python's `sorted`). -/
def calculate_skill_gaps (c : Candidate) (p : Project) : List SkillGap :=
  (pre_gaps c p).mergeSort gapGE

/-- One explanation entry (`schemas.ExplanationItem`). -/
structure ExplanationItem where
  type : String
  category : String
  detail : String
  impact : String
deriving DecidableEq

/-- Python `f"{q:.1f}"` on the nonnegative rationals produced by the engine:
one decimal digit, value rounded to the nearest tenth. -/
def fmt1 (q : ℚ) : String :=
  let n : ℤ := round (q * 10)
  toString (n / 10) ++ "." ++ toString (n % 10)

/-- Python `f"{q:.0f}"` on the nonnegative rationals produced by the engine. -/
def fmt0 (q : ℚ) : String := toString (round q : ℤ)

/-- `_generate_explanations`: the six conditional blocks, appended in
source order. -/
def generate_explanations (c : Candidate)
    (technical communication leadership experience : ℚ)
    (gaps : List SkillGap) (fairness_bonus : ℚ) (mitigations : List String) :
    List ExplanationItem :=
  let e1 : List ExplanationItem :=
    if 85 ≤ technical then
      [{ type := "strength", category := "Technical Excellence",
         detail := "Exceptional technical alignment (" ++ fmt1 technical
           ++ "%) with project requirements. Candidate demonstrates mastery in key areas.",
         impact := "High" }]
    else if 70 ≤ technical then
      [{ type := "neutral", category := "Technical Competency",
         detail := "Solid technical foundation (" ++ fmt1 technical
           ++ "%) meets project needs.",
         impact := "Medium" }]
    else
      [{ type := "weakness", category := "Technical Gap",
         detail := "Technical skills (" ++ fmt1 technical
           ++ "%) below optimal threshold. Consider upskilling program.",
         impact := "Medium" }]
  let e2 : List ExplanationItem :=
    if 85 ≤ communication then
      [{ type := "strength", category := "Communication",
         detail := "Outstanding communication skills indicate strong team collaboration potential.",
         impact := "High" }]
    else []
  let e3 : List ExplanationItem :=
    if 80 ≤ leadership then
      [{ type := "strength", category := "Leadership",
         detail := "Demonstrated leadership capability suitable for mentoring or team lead roles.",
         impact := "Medium" }]
    else []
  let e4 : List ExplanationItem :=
    match gaps with
    | [] => []
    | top_gap :: _ =>
      [{ type := "gap", category := "Development Opportunity",
         detail := "Primary gap in " ++ top_gap.skill ++ ": "
           ++ toString top_gap.actual ++ "/" ++ toString top_gap.required
           ++ " required. Recommended focus area for growth.",
         impact := "Low" }]
  let e5 : List ExplanationItem :=
    if 0 < fairness_bonus then
      [{ type := "fairness", category := "Equity Adjustment",
         detail := "Applied " ++ fmt0 fairness_bonus
           ++ "% fairness adjustment to ensure demographic parity and equal opportunity.",
         impact := "Adjustment" }]
    else []
  let e6 : List ExplanationItem :=
    if 5 ≤ c.years_experience then
      [{ type := "strength", category := "Experience",
         detail := toString c.years_experience
           ++ " years of industry experience brings valuable domain expertise.",
         impact := "Medium" }]
    else []
  e1 ++ e2 ++ e3 ++ e4 ++ e5 ++ e6

/-- Python `round(x, 2)` (see the header note on half-way ties). -/
def round2 (q : ℚ) : ℚ := ((round (q * 100) : ℤ) : ℚ) / 100

/-- Python `round(x, 3)`. -/
def round3 (q : ℚ) : ℚ := ((round (q * 1000) : ℤ) : ℚ) / 1000

/-- `weights = custom_weights or project.weights_config`: Python treats an
empty dict as falsy, so an empty override also falls back to the project's. -/
def effective_weights (p : Project) (custom : Option (List (String × ℚ))) :
    List (String × ℚ) :=
  match custom with
  | some w => if w.isEmpty then p.weights_config else w
  | none => p.weights_config

/-- The weighted raw score of `calculate_match` (before fairness and rounding). -/
def match_raw_score (c : Candidate) (p : Project)
    (custom_weights : Option (List (String × ℚ))) : ℚ :=
  let weights := effective_weights p custom_weights
  calculate_technical_score c p * dictGet weights "technical" 0.6 +
  get_skill_score c "Communication" * dictGet weights "communication" 0.2 +
  get_skill_score c "Leadership" * dictGet weights "leadership" 0.1 +
  experience_score_of c * dictGet weights "experience" 0.1

/-- The fairness pass of `calculate_match`, on the unrounded raw score. -/
def match_fairness (c : Candidate) (p : Project)
    (custom_weights : Option (List (String × ℚ)))
    (custom_fairness : Option FairnessConfig) : ℚ × List String :=
  apply_fairness_constraints c (match_raw_score c p custom_weights)
    (custom_fairness.getD p.fairness_config)

/-- The returned record of `calculate_match` (without the timing field,
which is wall-clock time, not part of the computed result). -/
structure MatchOutput where
  raw_score : ℚ
  final_score : ℚ
  fairness_adjustment : ℚ
  technical_score : ℚ
  communication_score : ℚ
  leadership_score : ℚ
  experience_score : ℚ
  skill_gaps : List SkillGap
  explanations : List ExplanationItem
  bias_mitigation_applied : List String
deriving DecidableEq

/-- `calculate_match`: the full single-candidate scoring pipeline. -/
def calculate_match (c : Candidate) (p : Project)
    (custom_weights : Option (List (String × ℚ)) := none)
    (custom_fairness : Option FairnessConfig := none) : MatchOutput :=
  let technical_score := calculate_technical_score c p
  let communication_score := get_skill_score c "Communication"
  let leadership_score := get_skill_score c "Leadership"
  let experience_score := experience_score_of c
  let raw_score := match_raw_score c p custom_weights
  let fb := match_fairness c p custom_weights custom_fairness
  let final_score := min (100 : ℚ) (raw_score + fb.1)
  let skill_gaps := calculate_skill_gaps c p
  let explanations := generate_explanations c technical_score communication_score
    leadership_score experience_score skill_gaps fb.1 fb.2
  { raw_score := round2 raw_score,
    final_score := round2 final_score,
    fairness_adjustment := round2 fb.1,
    technical_score := round2 technical_score,
    communication_score := round2 communication_score,
    leadership_score := round2 leadership_score,
    experience_score := round2 experience_score,
    skill_gaps := skill_gaps,
    explanations := explanations,
    bias_mitigation_applied := fb.2 }

/-- Appending a score to a group dict (`gender_scores[g].append(score)`,
creating the key on first appearance, as a Python dict does). -/
def addScore (d : List (String × List ℚ)) (k : String) (v : ℚ) :
    List (String × List ℚ) :=
  if d.any (fun pr => pr.1 == k) then
    d.map (fun pr => if pr.1 == k then (pr.1, pr.2 ++ [v]) else pr)
  else d ++ [(k, [v])]

/-- The grouping loops of `_calculate_fairness_metrics`: final scores grouped
by a demographic key, skipping candidates for which the key is unknown. -/
def group_scores (key : Candidate → Option String)
    (results : List (Candidate × MatchOutput)) : List (String × List ℚ) :=
  results.foldl (fun d cm =>
    match key cm.1 with
    | some g => addScore d g cm.2.final_score
    | none => d) []

/-- `np.mean` of a (nonempty) list of scores. -/
def npMean (l : List ℚ) : ℚ := l.sum / (l.length : ℚ)

def listMax : List ℚ → ℚ
  | [] => 0
  | a :: l => l.foldl max a

def listMin : List ℚ → ℚ
  | [] => 0
  | a :: l => l.foldl min a

/-- The `gender_parity_ratio` entry of `_calculate_fairness_metrics`: present
only when at least two gender groups exist; `min avg / max avg` rounded to 3
places, or 1.0 when the maximal average is 0. -/
def gender_metric (results : List (Candidate × MatchOutput)) : List (String × ℚ) :=
  if (group_scores (fun c => c.gender.map Gender.value) results).isEmpty then []
  else
    if 1 < ((group_scores (fun c => c.gender.map Gender.value) results).map
        (fun g => npMean g.2)).length then
      [("gender_parity_ratio",
        if 0 < listMax ((group_scores (fun c => c.gender.map Gender.value) results).map
            (fun g => npMean g.2))
        then round3 (listMin ((group_scores (fun c => c.gender.map Gender.value) results).map
              (fun g => npMean g.2))
            / listMax ((group_scores (fun c => c.gender.map Gender.value) results).map
              (fun g => npMean g.2)))
        else 1)]
    else []

/-- The `socioeconomic_parity` entry of `_calculate_fairness_metrics`:
present only when some candidate has a known socioeconomic status;
`np.std` of the group averages, rounded to 3 places. -/
def ses_metric (std : List ℚ → ℚ) (results : List (Candidate × MatchOutput)) :
    List (String × ℚ) :=
  if (group_scores (fun c => c.socioeconomic_status.map SES.value) results).isEmpty then []
  else [("socioeconomic_parity",
    round3 (std ((group_scores (fun c => c.socioeconomic_status.map SES.value) results).map
      (fun g => npMean g.2))))]

/-- `_calculate_fairness_metrics`.  `std` models `np.std`, the population
standard deviation of the per-group averages (see the header note).  The
`overall_fairness_score` entry reads `socioeconomic_parity` back from the
metrics dict built so far with `metrics.get("socioeconomic_parity", 0)`. -/
def calculate_fairness_metrics (std : List ℚ → ℚ)
    (results : List (Candidate × MatchOutput)) : List (String × ℚ) :=
  if results.isEmpty then []
  else
    gender_metric results ++ ses_metric std results
      ++ [("overall_fairness_score",
            round3 (1 - dictGet (gender_metric results ++ ses_metric std results)
              "socioeconomic_parity" 0))]

/-- One ranked entry of a `run_matching` response. -/
structure RankedMatch where
  candidate : Candidate
  output : MatchOutput
  rank : ℕ
deriving DecidableEq

/-- The `run_matching` response (without the timing field).  The source's
`matches` key is `match_list` here, `matches` being reserved in Lean. -/
structure RunOutput where
  total_candidates : ℕ
  match_list : List RankedMatch
  fairness_metrics : List (String × ℚ)
deriving DecidableEq

/-- The comparison of `results.sort(key=lambda x: x[1].final_score, reverse=True)`. -/
def rankGE (a b : Candidate × MatchOutput) : Bool :=
  decide (b.2.final_score ≤ a.2.final_score)

/-- The per-candidate results of a run, in candidate-set order: the active
candidates, each scored by `calculate_match`. -/
def run_results (p : Project) (candidates : List Candidate)
    (fairness_override : Option FairnessConfig) : List (Candidate × MatchOutput) :=
  (candidates.filter (fun c => c.is_active)).map
    (fun c => (c, calculate_match c p none fairness_override))

/-- The body of `run_matching` once the project is resolved: score the active
candidates in order, sort by final score descending (stable), assign ranks by
1-based position, compute cohort metrics over the results. -/
def run_core (p : Project) (candidates : List Candidate)
    (fairness_override : Option FairnessConfig) (std : List ℚ → ℚ) : RunOutput :=
  let ranked := (run_results p candidates fairness_override).mergeSort rankGE
  { total_candidates := (candidates.filter (fun c => c.is_active)).length,
    match_list := ranked.enum.map (fun ir =>
      { candidate := ir.2.1, output := ir.2.2, rank := ir.1 + 1 }),
    fairness_metrics := calculate_fairness_metrics std ranked }

/-- `run_matching`: raises `ValueError` when the project id does not resolve,
otherwise runs `run_core`. -/
def run_matching (project : Option Project) (candidates : List Candidate)
    (fairness_override : Option FairnessConfig) (std : List ℚ → ℚ) :
    Except String RunOutput :=
  match project with
  | none => Except.error "Project not found"
  | some p => Except.ok (run_core p candidates fairness_override std)

/-! ### Projection lemmas for `calculate_match` -/

theorem cm_technical (c : Candidate) (p : Project) (cw : Option (List (String × ℚ)))
    (cf : Option FairnessConfig) :
    (calculate_match c p cw cf).technical_score = round2 (calculate_technical_score c p) := rfl

theorem cm_comm (c : Candidate) (p : Project) (cw : Option (List (String × ℚ)))
    (cf : Option FairnessConfig) :
    (calculate_match c p cw cf).communication_score
      = round2 (get_skill_score c "Communication") := rfl

theorem cm_lead (c : Candidate) (p : Project) (cw : Option (List (String × ℚ)))
    (cf : Option FairnessConfig) :
    (calculate_match c p cw cf).leadership_score = round2 (get_skill_score c "Leadership") := rfl

theorem cm_exp (c : Candidate) (p : Project) (cw : Option (List (String × ℚ)))
    (cf : Option FairnessConfig) :
    (calculate_match c p cw cf).experience_score = round2 (experience_score_of c) := rfl

theorem cm_raw (c : Candidate) (p : Project) (cw : Option (List (String × ℚ)))
    (cf : Option FairnessConfig) :
    (calculate_match c p cw cf).raw_score = round2 (match_raw_score c p cw) := rfl

theorem cm_adj (c : Candidate) (p : Project) (cw : Option (List (String × ℚ)))
    (cf : Option FairnessConfig) :
    (calculate_match c p cw cf).fairness_adjustment
      = round2 (match_fairness c p cw cf).1 := rfl

theorem cm_final (c : Candidate) (p : Project) (cw : Option (List (String × ℚ)))
    (cf : Option FairnessConfig) :
    (calculate_match c p cw cf).final_score
      = round2 (min 100 (match_raw_score c p cw + (match_fairness c p cw cf).1)) := rfl

theorem cm_gaps (c : Candidate) (p : Project) (cw : Option (List (String × ℚ)))
    (cf : Option FairnessConfig) :
    (calculate_match c p cw cf).skill_gaps = calculate_skill_gaps c p := rfl

theorem cm_expl (c : Candidate) (p : Project) (cw : Option (List (String × ℚ)))
    (cf : Option FairnessConfig) :
    (calculate_match c p cw cf).explanations
      = generate_explanations c (calculate_technical_score c p)
          (get_skill_score c "Communication") (get_skill_score c "Leadership")
          (experience_score_of c) (calculate_skill_gaps c p)
          (match_fairness c p cw cf).1 (match_fairness c p cw cf).2 := rfl

/-! ### Rounding lemmas -/

theorem round2_intCast (n : ℤ) : round2 (n : ℚ) = n := by
  rw [round2]
  have h : ((n : ℚ) * 100) = ((n * 100 : ℤ) : ℚ) := by push_cast; ring
  rw [h, round_intCast]
  push_cast
  field_simp

theorem round2_add_int (x : ℚ) (n : ℤ) : round2 (x + n) = round2 x + n := by
  rw [round2, round2]
  have h : (x + n) * 100 = x * 100 + ((n * 100 : ℤ) : ℚ) := by push_cast; ring
  rw [h, round_add_int]
  push_cast
  field_simp

theorem round2_mono {x y : ℚ} (h : x ≤ y) : round2 x ≤ round2 y := by
  rw [round2, round2]
  have h2 : round (x * 100) ≤ round (y * 100) := by
    rw [round_eq, round_eq]
    exact Int.floor_le_floor (by linarith)
  have h3 : ((round (x * 100) : ℤ) : ℚ) ≤ ((round (y * 100) : ℤ) : ℚ) := by exact_mod_cast h2
  linarith

theorem round2_hundred : round2 (100 : ℚ) = 100 := by
  have := round2_intCast 100
  norm_num at this
  exact this

theorem round2_zero_eq : round2 (0 : ℚ) = 0 := by
  have := round2_intCast 0
  norm_num at this
  exact this

theorem round2_min_hundred (y : ℚ) : round2 (min 100 y) = min 100 (round2 y) := by
  rcases le_total y 100 with h | h
  · rw [min_eq_right h, min_eq_right]
    calc round2 y ≤ round2 100 := round2_mono h
    _ = 100 := round2_hundred
  · rw [min_eq_left h, min_eq_left, round2_hundred]
    rw [← round2_hundred]
    exact round2_mono h

/-! ### The fairness rule set in closed form -/

/-- The closed-form value of the fairness bonus: the sum of the three
independently triggered rule amounts. -/
theorem apply_fairness_formula (c : Candidate) (raw : ℚ) (cfg : FairnessConfig) :
    (apply_fairness_constraints c raw cfg).1 =
        (if cfg.socioeconomic_boost = true ∧ c.socioeconomic_status = some SES.low
          then 3 else 0)
      + (if cfg.gender_parity = true ∧
            (c.gender = some Gender.female ∨ c.gender = some Gender.nonBinary)
          then 2 else 0)
      + (if c.years_experience < 3 ∧ 70 < raw then 1 else 0) := by
  obtain ⟨profs, years, gOpt, eOpt, sOpt, act⟩ := c
  obtain ⟨dpt, eow, sb, gp, bs⟩ := cfg
  rcases sOpt with _ | s <;> rcases gOpt with _ | g <;> cases sb <;> cases gp <;>
    (try cases s) <;> (try cases g) <;>
    simp [apply_fairness_constraints, SES.value, Gender.value] <;>
    split_ifs <;> norm_num

theorem apply_fairness_nonneg (c : Candidate) (raw : ℚ) (cfg : FairnessConfig) :
    0 ≤ (apply_fairness_constraints c raw cfg).1 := by
  rw [apply_fairness_formula]
  split_ifs <;> norm_num

theorem apply_fairness_int (c : Candidate) (raw : ℚ) (cfg : FairnessConfig) :
    ∃ k : ℤ, (apply_fairness_constraints c raw cfg).1 = (k : ℚ) := by
  refine ⟨(if cfg.socioeconomic_boost = true ∧ c.socioeconomic_status = some SES.low
      then 3 else 0)
    + (if cfg.gender_parity = true ∧
          (c.gender = some Gender.female ∨ c.gender = some Gender.nonBinary)
        then 2 else 0)
    + (if c.years_experience < 3 ∧ 70 < raw then 1 else 0), ?_⟩
  rw [apply_fairness_formula]
  push_cast
  split_ifs <;> norm_num

/-! ### The spec's worked scenario (§8) -/

/-- The candidate of the spec's worked scenario: Python=95, ML=88,
Communication=78, 3 years of experience, low SES, non-binary. -/
def scenarioCandidate : Candidate :=
  { profs := [("Python", 95), ("ML", 88), ("Communication", 78)],
    years_experience := 3, gender := some .nonBinary, ethnicity := none,
    socioeconomic_status := some .low, is_active := true }

/-- The project of the spec's worked scenario: Python(90, w 1.5),
ML(85, w 2.0), Communication(70, w 1.0), weights 0.6/0.2/0.1/0.1,
default fairness configuration. -/
def scenarioProject : Project :=
  { required_skills :=
      [{ name := "Python", required_level := some 90, weight := some 1.5 },
       { name := "ML", required_level := some 85, weight := some 2 },
       { name := "Communication", required_level := some 70, weight := some 1 }],
    weights_config := [("technical", 0.6), ("communication", 0.2),
      ("leadership", 0.1), ("experience", 0.1)],
    fairness_config := {} }

theorem scenario_cv : build_candidate_vector scenarioCandidate scenarioProject
    = [("Python", 95), ("ML", 88), ("Communication", 78)] := by
  simp [build_candidate_vector, profOf, scenarioCandidate, scenarioProject]

theorem scenario_rv : build_requirement_vector scenarioProject
    = [("Python", 90), ("ML", 85), ("Communication", 70)] := by
  simp [build_requirement_vector, scenarioProject]

theorem scenario_wPy : skillWeight scenarioProject "Python" = 1.5 := by
  simp [skillWeight, scenarioProject]

theorem scenario_wML : skillWeight scenarioProject "ML" = 2 := by
  simp [skillWeight, scenarioProject]

theorem scenario_wC : skillWeight scenarioProject "Communication" = 1 := by
  simp [skillWeight, scenarioProject]

theorem scenario_tp : technical_pairs scenarioCandidate scenarioProject
    = [(100, 1.5), (100, 2), (100, 1)] := by
  rw [technical_pairs, scenario_cv, scenario_rv]
  simp [vecGet, skillScore, scenario_wPy, scenario_wML, scenario_wC]
  norm_num

theorem scenario_tech : calculate_technical_score scenarioCandidate scenarioProject = 100 := by
  rw [calculate_technical_score, scenario_tp]
  norm_num

theorem scenario_comm : get_skill_score scenarioCandidate "Communication" = 78 := by
  simp [get_skill_score, profOf, scenarioCandidate]

theorem scenario_lead : get_skill_score scenarioCandidate "Leadership" = 0 := by
  simp [get_skill_score, profOf, scenarioCandidate]

theorem scenario_exp : experience_score_of scenarioCandidate = 45 := by
  norm_num [experience_score_of, scenarioCandidate]

theorem scenario_raw : match_raw_score scenarioCandidate scenarioProject none = 80.1 := by
  rw [match_raw_score, scenario_tech, scenario_comm, scenario_lead, scenario_exp]
  simp [effective_weights, dictGet, scenarioProject]
  norm_num

theorem scenario_bonus :
    (match_fairness scenarioCandidate scenarioProject none none).1 = 5 := by
  rw [match_fairness]
  simp [apply_fairness_constraints, scenario_raw, scenarioCandidate, scenarioProject,
    Gender.value, SES.value]
  norm_num

/-- Claim C3: on the spec's worked scenario the scorer returns technical 100,
communication 78, leadership 0, experience 45, raw score 80.1, fairness
bonus 5 and final score 85.1. -/
theorem scenario_match_values :
    (calculate_match scenarioCandidate scenarioProject).technical_score = 100 ∧
    (calculate_match scenarioCandidate scenarioProject).communication_score = 78 ∧
    (calculate_match scenarioCandidate scenarioProject).leadership_score = 0 ∧
    (calculate_match scenarioCandidate scenarioProject).experience_score = 45 ∧
    (calculate_match scenarioCandidate scenarioProject).raw_score = 80.1 ∧
    (calculate_match scenarioCandidate scenarioProject).fairness_adjustment = 5 ∧
    (calculate_match scenarioCandidate scenarioProject).final_score = 85.1 := by
  refine ⟨?_, ?_, ?_, ?_, ?_, ?_, ?_⟩
  · rw [cm_technical, scenario_tech]; norm_num [round2, round_eq]
  · rw [cm_comm, scenario_comm]; norm_num [round2, round_eq]
  · rw [cm_lead, scenario_lead]; norm_num [round2, round_eq]
  · rw [cm_exp, scenario_exp]; norm_num [round2, round_eq]
  · rw [cm_raw, scenario_raw]; norm_num [round2, round_eq]
  · rw [cm_adj, scenario_bonus]; norm_num [round2, round_eq]
  · rw [cm_final, scenario_raw, scenario_bonus]; norm_num [round2, round_eq]

/-! ### Claim C2: the fairness bonus -/

/-- Claim C2: the fairness bonus equals the sum of the triggered rule amounts
(+3 socioeconomic, +2 gender, +1 early-career — the last gated by no config
flag), is never negative, the final score is `min(100, raw + bonus)` at the
returned (rounded) values, and toggling `socioeconomic_boost` off removes
exactly 3 points when the candidate's status is low. -/
theorem fairness_bonus_claim (c : Candidate) (raw : ℚ) (cfg : FairnessConfig)
    (p : Project) (cw : Option (List (String × ℚ))) (cf : Option FairnessConfig) :
    (apply_fairness_constraints c raw cfg).1 =
        (if cfg.socioeconomic_boost = true ∧ c.socioeconomic_status = some SES.low
          then 3 else 0)
      + (if cfg.gender_parity = true ∧
            (c.gender = some Gender.female ∨ c.gender = some Gender.nonBinary)
          then 2 else 0)
      + (if c.years_experience < 3 ∧ 70 < raw then 1 else 0)
    ∧ 0 ≤ (apply_fairness_constraints c raw cfg).1
    ∧ (calculate_match c p cw cf).final_score
        = min 100 ((calculate_match c p cw cf).raw_score
            + (calculate_match c p cw cf).fairness_adjustment)
    ∧ (cfg.socioeconomic_boost = true → c.socioeconomic_status = some SES.low →
        (apply_fairness_constraints c raw
            { cfg with socioeconomic_boost := false }).1
          = (apply_fairness_constraints c raw cfg).1 - 3) := by
  refine ⟨apply_fairness_formula c raw cfg, apply_fairness_nonneg c raw cfg, ?_, ?_⟩
  · rw [cm_final, cm_raw, cm_adj]
    obtain ⟨k, hk⟩ := apply_fairness_int c (match_raw_score c p cw)
      (cf.getD p.fairness_config)
    have hk2 : (match_fairness c p cw cf).1 = (k : ℚ) := hk
    rw [hk2, round2_intCast, round2_min_hundred, round2_add_int]
  · intro hb hs
    rw [apply_fairness_formula, apply_fairness_formula]
    simp only [hs, hb]
    simp
    ring

/-- Witness for C2: the scenario candidate (low SES) at raw score 80 under the
default configuration: the bonus is non-negative, and disabling the
socioeconomic boost removes exactly 3 points. -/
theorem fairness_bonus_claim_witness :
    0 ≤ (apply_fairness_constraints scenarioCandidate 80 {}).1 ∧
    (apply_fairness_constraints scenarioCandidate 80
        { ({} : FairnessConfig) with socioeconomic_boost := false }).1
      = (apply_fairness_constraints scenarioCandidate 80 ({} : FairnessConfig)).1 - 3 :=
  ⟨(fairness_bonus_claim scenarioCandidate 80 {} scenarioProject none none).2.1,
   (fairness_bonus_claim scenarioCandidate 80 {} scenarioProject none none).2.2.2 rfl rfl⟩

/-! ### Claim C9: demographics do not reach the component scorer -/

/-- Claim C9: two candidates with the same proficiencies and years of
experience receive identical component scores and raw score, whatever their
demographic attributes. -/
theorem demographic_blindness (c1 c2 : Candidate) (p : Project)
    (cw : Option (List (String × ℚ))) (cf : Option FairnessConfig)
    (hp : c1.profs = c2.profs) (hy : c1.years_experience = c2.years_experience) :
    (calculate_match c1 p cw cf).technical_score
      = (calculate_match c2 p cw cf).technical_score ∧
    (calculate_match c1 p cw cf).communication_score
      = (calculate_match c2 p cw cf).communication_score ∧
    (calculate_match c1 p cw cf).leadership_score
      = (calculate_match c2 p cw cf).leadership_score ∧
    (calculate_match c1 p cw cf).experience_score
      = (calculate_match c2 p cw cf).experience_score ∧
    (calculate_match c1 p cw cf).raw_score = (calculate_match c2 p cw cf).raw_score := by
  have hpo : profOf c1 = profOf c2 := funext fun n => by rw [profOf, profOf, hp]
  have hcv : build_candidate_vector c1 p = build_candidate_vector c2 p := by
    rw [build_candidate_vector, build_candidate_vector, hpo]
  have htp : technical_pairs c1 p = technical_pairs c2 p := by
    rw [technical_pairs, technical_pairs, hcv]
  have hts : calculate_technical_score c1 p = calculate_technical_score c2 p := by
    simp only [calculate_technical_score, htp]
  have hgs : ∀ n, get_skill_score c1 n = get_skill_score c2 n := fun n => by
    rw [get_skill_score, get_skill_score, hpo]
  have hes : experience_score_of c1 = experience_score_of c2 := by
    rw [experience_score_of, experience_score_of, hy]
  have hraw : match_raw_score c1 p cw = match_raw_score c2 p cw := by
    rw [match_raw_score, match_raw_score, hts, hgs "Communication", hgs "Leadership", hes]
  exact ⟨by rw [cm_technical, cm_technical, hts],
    by rw [cm_comm, cm_comm, hgs "Communication"],
    by rw [cm_lead, cm_lead, hgs "Leadership"],
    by rw [cm_exp, cm_exp, hes],
    by rw [cm_raw, cm_raw, hraw]⟩

/-- A candidate used by the C9 witness: female, Asian, low SES. -/
def demoCandidateA : Candidate :=
  { profs := [("Python", 60)], years_experience := 4, gender := some .female,
    ethnicity := some "asian", socioeconomic_status := some .low, is_active := true }

/-- The same candidate as `demoCandidateA` except for all three demographic
attributes. -/
def demoCandidateB : Candidate :=
  { profs := [("Python", 60)], years_experience := 4, gender := some .male,
    ethnicity := some "other", socioeconomic_status := some .high, is_active := true }

/-- Witness for C9: two concrete candidates differing only in demographics
get the same component and raw scores. -/
theorem demographic_blindness_witness :
    (calculate_match demoCandidateA scenarioProject).technical_score
      = (calculate_match demoCandidateB scenarioProject).technical_score ∧
    (calculate_match demoCandidateA scenarioProject).communication_score
      = (calculate_match demoCandidateB scenarioProject).communication_score ∧
    (calculate_match demoCandidateA scenarioProject).leadership_score
      = (calculate_match demoCandidateB scenarioProject).leadership_score ∧
    (calculate_match demoCandidateA scenarioProject).experience_score
      = (calculate_match demoCandidateB scenarioProject).experience_score ∧
    (calculate_match demoCandidateA scenarioProject).raw_score
      = (calculate_match demoCandidateB scenarioProject).raw_score :=
  demographic_blindness demoCandidateA demoCandidateB scenarioProject none none rfl rfl

/-! ### Claim C10: the technical-assessment explanation -/

/-- Whether an explanation entry is the technical assessment. -/
def isTechCategory (e : ExplanationItem) : Bool :=
  e.category == "Technical Excellence" || e.category == "Technical Competency"
    || e.category == "Technical Gap"

/-- Claim C10: the explanation list contains exactly one technical-assessment
entry, it is the first entry, its category follows the 85/70 thresholds, and
the list is therefore never empty. -/
theorem explanations_tech_claim (c : Candidate)
    (technical communication leadership experience : ℚ)
    (gaps : List SkillGap) (fairness_bonus : ℚ) (mitigations : List String) :
    (generate_explanations c technical communication leadership experience gaps
        fairness_bonus mitigations).countP isTechCategory = 1 ∧
    (generate_explanations c technical communication leadership experience gaps
        fairness_bonus mitigations) ≠ [] ∧
    ((generate_explanations c technical communication leadership experience gaps
        fairness_bonus mitigations).head?.map (·.category))
      = some (if 85 ≤ technical then "Technical Excellence"
          else if 70 ≤ technical then "Technical Competency"
          else "Technical Gap") := by
  rcases gaps with _ | ⟨g, gs⟩ <;>
    simp only [generate_explanations] <;>
    split_ifs <;>
    simp [isTechCategory, List.countP_append, List.countP_cons, List.countP_nil]

/-! ### Claim C4: the skill-gap list -/

theorem gapGE_trans : ∀ (a b c : SkillGap), gapGE a b → gapGE b c → gapGE a c := by
  intro a b c hab hbc
  simp only [gapGE, decide_eq_true_eq] at *
  omega

theorem gapGE_total : ∀ (a b : SkillGap), gapGE a b || gapGE b a := by
  intro a b
  simp only [gapGE, Bool.or_eq_true, decide_eq_true_eq]
  omega

/-- Claim C4: the skill-gap list is a permutation of the entries collected in
requirement order, holds an entry exactly for each required skill whose actual
level is below the required one (with `gap = required - actual`), is sorted by
gap descending, and the sort is stable: sorting the position-tagged list with
ties broken by position gives the same output, in which equal gaps keep
increasing positions. -/
theorem skill_gaps_claim (c : Candidate) (p : Project) :
    (calculate_skill_gaps c p).Perm (pre_gaps c p) ∧
    (∀ g ∈ calculate_skill_gaps c p,
      g.actual < g.required ∧ g.gap = g.required - g.actual) ∧
    (∀ r ∈ p.required_skills, (profOf c r.name).getD 0 < r.required_level.getD 80 →
      ({ skill := r.name, required := r.required_level.getD 80,
         actual := (profOf c r.name).getD 0,
         gap := r.required_level.getD 80 - (profOf c r.name).getD 0 } : SkillGap)
        ∈ calculate_skill_gaps c p) ∧
    (calculate_skill_gaps c p).Pairwise (fun a b => b.gap ≤ a.gap) ∧
    (((pre_gaps c p).enum.mergeSort (List.enumLE gapGE)).map (fun x => x.2)
        = calculate_skill_gaps c p) ∧
    ((pre_gaps c p).enum.mergeSort (List.enumLE gapGE)).Pairwise
      (fun a b => a.2.gap = b.2.gap → a.1 ≤ b.1) := by
  refine ⟨List.mergeSort_perm _ _, ?_, ?_, ?_, List.mergeSort_enum, ?_⟩
  · intro g hg
    have hmem : g ∈ pre_gaps c p := List.mem_mergeSort.mp hg
    rw [pre_gaps, List.mem_filterMap] at hmem
    obtain ⟨r, _, hf⟩ := hmem
    split_ifs at hf with h
    cases hf
    exact ⟨h, rfl⟩
  · intro r hr hlt
    apply List.mem_mergeSort.mpr
    rw [pre_gaps, List.mem_filterMap]
    exact ⟨r, hr, by rw [if_pos hlt]⟩
  · exact (List.sorted_mergeSort gapGE_trans gapGE_total _).imp
      (fun h => by simpa [gapGE] using h)
  · refine (List.sorted_mergeSort (List.enumLE_trans gapGE_trans)
      (List.enumLE_total gapGE_total) _).imp ?_
    intro a b h heq
    have h1 : gapGE a.2 b.2 = true := by simp [gapGE, heq]
    have h2 : gapGE b.2 a.2 = true := by simp [gapGE, heq]
    rw [List.enumLE, h1, h2] at h
    simpa using h

/-! ### Claim C5: ranking -/

theorem rankGE_trans : ∀ (a b c : Candidate × MatchOutput),
    rankGE a b → rankGE b c → rankGE a c := by
  intro a b c hab hbc
  simp only [rankGE, decide_eq_true_eq] at *
  linarith

theorem rankGE_total : ∀ (a b : Candidate × MatchOutput), rankGE a b || rankGE b a := by
  intro a b
  simp only [rankGE, Bool.or_eq_true, decide_eq_true_eq]
  exact le_total _ _

theorem enum_map_fst_add_one (l : List (Candidate × MatchOutput)) :
    l.enum.map (fun x => x.1 + 1) = List.range' 1 l.length := by
  have h1 : (fun x : ℕ × (Candidate × MatchOutput) => x.1 + 1)
      = (fun i => i + 1) ∘ Prod.fst := rfl
  rw [h1, ← List.map_map, List.enum_map_fst, List.range'_eq_map_range]
  exact List.map_congr_left fun i _ => Nat.add_comm i 1

theorem run_core_match_list (p : Project) (cands : List Candidate)
    (fo : Option FairnessConfig) (std : List ℚ → ℚ) :
    (run_core p cands fo std).match_list
      = ((run_results p cands fo).mergeSort rankGE).enum.map
          (fun ir => { candidate := ir.2.1, output := ir.2.2, rank := ir.1 + 1 }) := rfl

/-- Claim C5: `run_matching` assigns the ranks 1..N densely in list order,
its match list is a permutation of the per-candidate results, it is ordered
by final score descending, and the order is stable: sorting the
position-tagged results with ties broken by position gives the same order,
in which equal final scores keep increasing positions. -/
theorem run_matching_ranking_claim (p : Project) (cands : List Candidate)
    (fo : Option FairnessConfig) (std : List ℚ → ℚ) :
    ((run_core p cands fo std).match_list.map (fun m => m.rank))
      = List.range' 1 ((run_core p cands fo std).total_candidates) ∧
    (((run_core p cands fo std).match_list.map (fun m => (m.candidate, m.output))).Perm
      (run_results p cands fo)) ∧
    ((run_core p cands fo std).match_list.map (fun m => m.output)).Pairwise
      (fun a b => b.final_score ≤ a.final_score) ∧
    (((run_results p cands fo).enum.mergeSort (List.enumLE rankGE)).map (fun x => x.2)
        = (run_results p cands fo).mergeSort rankGE) ∧
    ((run_results p cands fo).enum.mergeSort (List.enumLE rankGE)).Pairwise
      (fun a b => a.2.2.final_score = b.2.2.final_score → a.1 ≤ b.1) := by
  refine ⟨?_, ?_, ?_, List.mergeSort_enum, ?_⟩
  · rw [run_core_match_list, List.map_map]
    have h : ((fun m : RankedMatch => m.rank) ∘ fun ir : ℕ × (Candidate × MatchOutput) =>
        ({ candidate := ir.2.1, output := ir.2.2, rank := ir.1 + 1 } : RankedMatch))
        = fun x : ℕ × (Candidate × MatchOutput) => x.1 + 1 := rfl
    rw [h, enum_map_fst_add_one, List.length_mergeSort, run_results,
      List.length_map, run_core]
  · rw [run_core_match_list, List.map_map]
    have h : ((fun m : RankedMatch => (m.candidate, m.output)) ∘
        fun ir : ℕ × (Candidate × MatchOutput) =>
        ({ candidate := ir.2.1, output := ir.2.2, rank := ir.1 + 1 } : RankedMatch))
        = fun x : ℕ × (Candidate × MatchOutput) => x.2 := by
      funext x
      rfl
    rw [h, List.enum_map_snd]
    exact List.mergeSort_perm _ _
  · rw [run_core_match_list, List.map_map]
    have h : ((fun m : RankedMatch => m.output) ∘
        fun ir : ℕ × (Candidate × MatchOutput) =>
        ({ candidate := ir.2.1, output := ir.2.2, rank := ir.1 + 1 } : RankedMatch))
        = (fun cm : Candidate × MatchOutput => cm.2) ∘
          (fun x : ℕ × (Candidate × MatchOutput) => x.2) := rfl
    rw [h, ← List.map_map, List.enum_map_snd, List.pairwise_map]
    exact (List.sorted_mergeSort rankGE_trans rankGE_total _).imp
      (fun h2 => by simpa [rankGE] using h2)
  · refine (List.sorted_mergeSort (List.enumLE_trans rankGE_trans)
      (List.enumLE_total rankGE_total) _).imp ?_
    intro a b h heq
    have h1 : rankGE a.2 b.2 = true := by simp [rankGE, heq]
    have h2 : rankGE b.2 a.2 = true := by simp [rankGE, heq]
    rw [List.enumLE, h1, h2] at h
    simpa using h

/-! ### Claim C8: the overall fairness score -/

theorem round3_int_div (m : ℤ) : round3 ((m : ℚ) / 1000) = (m : ℚ) / 1000 := by
  rw [round3]
  have h : ((m : ℚ) / 1000) * 1000 = ((m : ℤ) : ℚ) := by field_simp
  rw [h, round_intCast]

theorem round3_one_sub_round3 (x : ℚ) : round3 (1 - round3 x) = 1 - round3 x := by
  have h : (1 : ℚ) - round3 x = ((1000 - round (x * 1000) : ℤ) : ℚ) / 1000 := by
    rw [round3]
    push_cast
    ring
  rw [h, round3_int_div]

theorem round3_one : round3 (1 : ℚ) = 1 := by
  have h : (1 : ℚ) = ((1000 : ℤ) : ℚ) / 1000 := by norm_num
  rw [h, round3_int_div]

theorem gender_metric_keys (results : List (Candidate × MatchOutput)) (k : String)
    (hk : k ≠ "gender_parity_ratio") :
    (gender_metric results).find? (fun pr => pr.1 == k) = none := by
  rw [gender_metric]
  split_ifs <;> simp [hk, Ne.symm hk]

/-- Claim C8 (amended): for a non-empty run, `overall_fairness_score` equals
`1 - socioeconomic_parity` when the parity entry is present, and equals 1
(not 0, as the claim stated) when it is absent: the code falls back to
`metrics.get("socioeconomic_parity", 0)` and computes `round(1 - 0, 3) = 1`. -/
theorem overall_fairness_claim (std : List ℚ → ℚ)
    (results : List (Candidate × MatchOutput)) (h : results ≠ []) :
    (∀ v, dictFind (calculate_fairness_metrics std results) "socioeconomic_parity" = some v →
      dictFind (calculate_fairness_metrics std results) "overall_fairness_score"
        = some (1 - v)) ∧
    (dictFind (calculate_fairness_metrics std results) "socioeconomic_parity" = none →
      dictFind (calculate_fairness_metrics std results) "overall_fairness_score"
        = some 1) := by
  have hne : results.isEmpty = false := by
    simpa [List.isEmpty_iff] using h
  have hGses := gender_metric_keys results "socioeconomic_parity" (by decide)
  have hGov := gender_metric_keys results "overall_fairness_score" (by decide)
  rw [calculate_fairness_metrics, hne]
  simp only [Bool.false_eq_true, if_false]
  cases hS : (group_scores (fun c => c.socioeconomic_status.map SES.value) results).isEmpty
  · rw [ses_metric, hS]
    simp only [Bool.false_eq_true, if_false]
    constructor
    · intro v hv
      simp [dictFind, dictGet, List.find?_append, hGses, hGov] at hv ⊢
      rw [← hv]
      exact round3_one_sub_round3 _
    · intro hv
      simp [dictFind, List.find?_append, hGses] at hv
  · rw [ses_metric, hS]
    simp only [if_true]
    constructor
    · intro v hv
      simp [dictFind, List.find?_append, hGses] at hv
    · intro _
      simp [dictFind, dictGet, List.find?_append, hGses, hGov, round3_one]

/-- A candidate with no recorded demographics. -/
def noDemoCandidate : Candidate :=
  { profs := [], years_experience := 0, gender := none, ethnicity := none,
    socioeconomic_status := none, is_active := true }

/-- A project with no requirements and an empty weight configuration. -/
def emptyProject : Project :=
  { required_skills := [], weights_config := [], fairness_config := {} }

/-- Counterexample for C8 as stated: in a run over one candidate with no
known socioeconomic status, `socioeconomic_parity` is omitted and
`overall_fairness_score` is 1, not 0. -/
theorem overall_fairness_counterexample :
    dictFind ((run_core emptyProject [noDemoCandidate] none (fun _ => 0)).fairness_metrics)
        "socioeconomic_parity" = none ∧
    dictFind ((run_core emptyProject [noDemoCandidate] none (fun _ => 0)).fairness_metrics)
        "overall_fairness_score" = some 1 := by
  constructor <;>
    simp [run_core, run_results, calculate_fairness_metrics, gender_metric, ses_metric,
      group_scores, dictFind, dictGet, round3_one, noDemoCandidate, rankGE]

/-- Witness for the amended C8, at a concrete non-empty result list. -/
theorem overall_fairness_claim_witness :
    (∀ v, dictFind (calculate_fairness_metrics (fun _ => 0)
          [(noDemoCandidate, calculate_match noDemoCandidate emptyProject none none)])
        "socioeconomic_parity" = some v →
      dictFind (calculate_fairness_metrics (fun _ => 0)
          [(noDemoCandidate, calculate_match noDemoCandidate emptyProject none none)])
        "overall_fairness_score" = some (1 - v)) ∧
    (dictFind (calculate_fairness_metrics (fun _ => 0)
          [(noDemoCandidate, calculate_match noDemoCandidate emptyProject none none)])
        "socioeconomic_parity" = none →
      dictFind (calculate_fairness_metrics (fun _ => 0)
          [(noDemoCandidate, calculate_match noDemoCandidate emptyProject none none)])
        "overall_fairness_score" = some 1) :=
  overall_fairness_claim (fun _ => 0) _ (by simp)

/-! ### Claim C6: the empty candidate set -/

/-- Claim C6: an existing project with an empty candidate set is not an
error: zero matches and empty fairness metrics. -/
theorem run_matching_empty_claim (p : Project) (fo : Option FairnessConfig)
    (std : List ℚ → ℚ) :
    run_matching (some p) [] fo std
      = Except.ok { total_candidates := 0, match_list := [], fairness_metrics := [] } := by
  simp [run_matching, run_core, run_results, calculate_fairness_metrics]


/-! ### Claim C1: score ranges -/
theorem weighted_pairs_sum_bound (l : List (ℚ × ℚ))
    (h : ∀ x ∈ l, 0 ≤ x.1 ∧ x.1 ≤ 100 ∧ 0 ≤ x.2) :
    0 ≤ (l.map (fun q => q.1 * q.2)).sum ∧
    (l.map (fun q => q.1 * q.2)).sum ≤ 100 * (l.map (fun q => q.2)).sum := by
  induction l with
  | nil => simp
  | cons a t ih =>
    obtain ⟨ha1, ha2, ha3⟩ := h a (List.mem_cons_self a t)
    obtain ⟨ih1, ih2⟩ := ih (fun x hx => h x (List.mem_cons_of_mem a hx))
    simp only [List.map_cons, List.sum_cons]
    constructor
    · have := mul_nonneg ha1 ha3
      linarith
    · have := mul_le_mul_of_nonneg_right ha2 ha3
      linarith

theorem profOf_getD_bounds (c : Candidate)
    (hprof : ∀ pr ∈ c.profs, 0 ≤ pr.2 ∧ pr.2 ≤ 100) (name : String) :
    0 ≤ (profOf c name).getD 0 ∧ (profOf c name).getD 0 ≤ 100 := by
  rw [profOf]
  cases hf : c.profs.find? (fun pr => pr.1 == name) with
  | none => simp
  | some pr =>
    have := hprof pr (List.mem_of_find?_eq_some hf)
    simpa using this

theorem skillScore_bounds (a r : ℤ) (ha : 0 ≤ a) :
    0 ≤ skillScore a r ∧ skillScore a r ≤ 100 := by
  rw [skillScore]
  split_ifs with h1 h2
  · refine ⟨le_min (by norm_num) ?_, min_le_left _ _⟩
    have hr : (0 : ℚ) < (r : ℚ) := by exact_mod_cast h1
    have haq : (0 : ℚ) ≤ (a : ℚ) := by exact_mod_cast ha
    positivity
  · exact ⟨by norm_num, by norm_num⟩
  · exact ⟨by norm_num, by norm_num⟩

theorem cv_value_bounds (c : Candidate) (p : Project)
    (hprof : ∀ pr ∈ c.profs, 0 ≤ pr.2 ∧ pr.2 ≤ 100) (k : String) :
    0 ≤ vecGet (build_candidate_vector c p) k 0 ∧
    vecGet (build_candidate_vector c p) k 0 ≤ 100 := by
  rw [vecGet]
  cases hf : (build_candidate_vector c p).find? (fun pr => pr.1 == k) with
  | none => simp
  | some pr =>
    have hmem : pr ∈ build_candidate_vector c p := List.mem_of_find?_eq_some hf
    rw [build_candidate_vector, List.mem_map] at hmem
    obtain ⟨r, _, hr⟩ := hmem
    have := profOf_getD_bounds c hprof r.name
    simp only [← hr, Option.getD_some, Option.map_some]
    simpa using this

theorem skillWeight_nonneg (p : Project)
    (hrw : ∀ r ∈ p.required_skills, ∀ w, r.weight = some w → 0 ≤ w) (name : String) :
    0 ≤ skillWeight p name := by
  rw [skillWeight]
  cases hf : p.required_skills.find? (fun r => r.name == name) with
  | none => simp
  | some r =>
    have hmem : r ∈ p.required_skills := List.mem_of_find?_eq_some hf
    cases hw : r.weight with
    | none => simp [hw]
    | some w =>
      have := hrw r hmem w hw
      simpa [hw] using this

theorem technical_pairs_bounds (c : Candidate) (p : Project)
    (hprof : ∀ pr ∈ c.profs, 0 ≤ pr.2 ∧ pr.2 ≤ 100)
    (hrw : ∀ r ∈ p.required_skills, ∀ w, r.weight = some w → 0 ≤ w) :
    ∀ x ∈ technical_pairs c p, 0 ≤ x.1 ∧ x.1 ≤ 100 ∧ 0 ≤ x.2 := by
  intro x hx
  rw [technical_pairs, List.mem_map] at hx
  obtain ⟨sr, _, hsr⟩ := hx
  subst hsr
  have h1 := cv_value_bounds c p hprof sr.1
  have h2 := skillScore_bounds (vecGet (build_candidate_vector c p) sr.1 0) sr.2 h1.1
  exact ⟨h2.1, h2.2, skillWeight_nonneg p hrw sr.1⟩

theorem technical_score_bounds (c : Candidate) (p : Project)
    (hprof : ∀ pr ∈ c.profs, 0 ≤ pr.2 ∧ pr.2 ≤ 100)
    (hrw : ∀ r ∈ p.required_skills, ∀ w, r.weight = some w → 0 ≤ w)
    (hsum : p.required_skills = [] ∨ 0 < ((technical_pairs c p).map (fun q => q.2)).sum) :
    0 ≤ calculate_technical_score c p ∧ calculate_technical_score c p ≤ 100 := by
  rw [calculate_technical_score]
  cases he : (technical_pairs c p).isEmpty
  · simp only [he, Bool.false_eq_true, if_false]
    have hW : 0 < ((technical_pairs c p).map (fun q => q.2)).sum := by
      rcases hsum with h | h
      · exfalso
        have : technical_pairs c p = [] := by
          rw [technical_pairs, build_requirement_vector, h]
          simp
        rw [this] at he
        simp at he
      · exact h
    obtain ⟨hS1, hS2⟩ := weighted_pairs_sum_bound _ (technical_pairs_bounds c p hprof hrw)
    constructor
    · exact div_nonneg hS1 hW.le
    · rw [div_le_iff₀ hW]
      linarith
  · simp [he]

theorem get_skill_score_bounds (c : Candidate)
    (hprof : ∀ pr ∈ c.profs, 0 ≤ pr.2 ∧ pr.2 ≤ 100) (name : String) :
    0 ≤ get_skill_score c name ∧ get_skill_score c name ≤ 100 := by
  rw [get_skill_score]
  have h := profOf_getD_bounds c hprof name
  constructor
  · exact_mod_cast h.1
  · exact_mod_cast h.2

theorem experience_score_bounds (c : Candidate) (hyears : 0 ≤ c.years_experience) :
    0 ≤ experience_score_of c ∧ experience_score_of c ≤ 100 := by
  rw [experience_score_of]
  have hy : (0 : ℚ) ≤ (c.years_experience : ℚ) := by exact_mod_cast hyears
  exact ⟨le_min (by norm_num) (by linarith), min_le_left _ _⟩

/-- Claim C1 (amended): under valid inputs every component score and the
final score lie in [0, 100], the raw score is non-negative, and the raw
score is at most 100 whenever the four effective weights sum to at most 1 —
but the raw score itself is not clamped, so it can exceed 100 when the
weights sum beyond 1 (see `raw_score_exceeds_100`). -/
theorem calculate_match_scores_bounded (c : Candidate) (p : Project)
    (cw : Option (List (String × ℚ))) (cf : Option FairnessConfig)
    (hprof : ∀ pr ∈ c.profs, 0 ≤ pr.2 ∧ pr.2 ≤ 100)
    (hyears : 0 ≤ c.years_experience)
    (hrw : ∀ r ∈ p.required_skills, ∀ w, r.weight = some w → 0 ≤ w)
    (hsum : p.required_skills = [] ∨ 0 < ((technical_pairs c p).map (fun q => q.2)).sum)
    (hwt : 0 ≤ dictGet (effective_weights p cw) "technical" 0.6)
    (hwc : 0 ≤ dictGet (effective_weights p cw) "communication" 0.2)
    (hwl : 0 ≤ dictGet (effective_weights p cw) "leadership" 0.1)
    (hwe : 0 ≤ dictGet (effective_weights p cw) "experience" 0.1) :
    (0 ≤ (calculate_match c p cw cf).technical_score ∧
      (calculate_match c p cw cf).technical_score ≤ 100) ∧
    (0 ≤ (calculate_match c p cw cf).communication_score ∧
      (calculate_match c p cw cf).communication_score ≤ 100) ∧
    (0 ≤ (calculate_match c p cw cf).leadership_score ∧
      (calculate_match c p cw cf).leadership_score ≤ 100) ∧
    (0 ≤ (calculate_match c p cw cf).experience_score ∧
      (calculate_match c p cw cf).experience_score ≤ 100) ∧
    (0 ≤ (calculate_match c p cw cf).final_score ∧
      (calculate_match c p cw cf).final_score ≤ 100) ∧
    0 ≤ (calculate_match c p cw cf).raw_score ∧
    (dictGet (effective_weights p cw) "technical" 0.6
        + dictGet (effective_weights p cw) "communication" 0.2
        + dictGet (effective_weights p cw) "leadership" 0.1
        + dictGet (effective_weights p cw) "experience" 0.1 ≤ 1 →
      (calculate_match c p cw cf).raw_score ≤ 100) := by
  have htech := technical_score_bounds c p hprof hrw hsum
  have hcomm := get_skill_score_bounds c hprof "Communication"
  have hlead := get_skill_score_bounds c hprof "Leadership"
  have hexp := experience_score_bounds c hyears
  have hraw1 : 0 ≤ match_raw_score c p cw := by
    rw [match_raw_score]
    have := mul_nonneg htech.1 hwt
    have := mul_nonneg hcomm.1 hwc
    have := mul_nonneg hlead.1 hwl
    have := mul_nonneg hexp.1 hwe
    linarith
  have hraw2 : match_raw_score c p cw
      ≤ 100 * (dictGet (effective_weights p cw) "technical" 0.6
          + dictGet (effective_weights p cw) "communication" 0.2
          + dictGet (effective_weights p cw) "leadership" 0.1
          + dictGet (effective_weights p cw) "experience" 0.1) := by
    rw [match_raw_score]
    have := mul_le_mul_of_nonneg_right htech.2 hwt
    have := mul_le_mul_of_nonneg_right hcomm.2 hwc
    have := mul_le_mul_of_nonneg_right hlead.2 hwl
    have := mul_le_mul_of_nonneg_right hexp.2 hwe
    linarith
  have bound01 : ∀ x : ℚ, 0 ≤ x → x ≤ 100 → 0 ≤ round2 x ∧ round2 x ≤ 100 := by
    intro x h0 h1
    constructor
    · rw [← round2_zero_eq]
      exact round2_mono h0
    · rw [← round2_hundred]
      exact round2_mono h1
  refine ⟨?_, ?_, ?_, ?_, ?_, ?_, ?_⟩
  · rw [cm_technical]
    exact bound01 _ htech.1 htech.2
  · rw [cm_comm]
    exact bound01 _ hcomm.1 hcomm.2
  · rw [cm_lead]
    exact bound01 _ hlead.1 hlead.2
  · rw [cm_exp]
    exact bound01 _ hexp.1 hexp.2
  · rw [cm_final]
    have hb := apply_fairness_nonneg c (match_raw_score c p cw) (cf.getD p.fairness_config)
    have hb2 : 0 ≤ (match_fairness c p cw cf).1 := hb
    refine bound01 _ ?_ (min_le_left _ _)
    exact le_min (by norm_num) (by linarith)
  · rw [cm_raw]
    rw [← round2_zero_eq]
    exact round2_mono hraw1
  · intro hw1
    rw [cm_raw, ← round2_hundred]
    apply round2_mono
    calc match_raw_score c p cw ≤ _ := hraw2
    _ ≤ 100 * 1 := by
      apply mul_le_mul_of_nonneg_left hw1
      norm_num
    _ = 100 := by norm_num

/-- A candidate at the top of every component scale. -/
def hundredCandidate : Candidate :=
  { profs := [("Python", 100), ("Communication", 100), ("Leadership", 100)],
    years_experience := 20, gender := none, ethnicity := none,
    socioeconomic_status := none, is_active := true }

/-- A project whose four weights are each 1 — every weight is inside the
schema's [0, 1] bound, but they sum to 4. -/
def overloadProject : Project :=
  { required_skills := [{ name := "Python", required_level := some 50, weight := some 1 }],
    weights_config := [("technical", 1), ("communication", 1),
      ("leadership", 1), ("experience", 1)],
    fairness_config := {} }

theorem overload_cv : build_candidate_vector hundredCandidate overloadProject
    = [("Python", 100)] := by
  simp [build_candidate_vector, profOf, hundredCandidate, overloadProject]

theorem overload_tp : technical_pairs hundredCandidate overloadProject = [(100, 1)] := by
  rw [technical_pairs, overload_cv]
  simp [build_requirement_vector, vecGet, skillScore, skillWeight, overloadProject]
  norm_num

theorem overload_tech : calculate_technical_score hundredCandidate overloadProject = 100 := by
  rw [calculate_technical_score, overload_tp]
  norm_num

theorem overload_raw : match_raw_score hundredCandidate overloadProject none = 400 := by
  rw [match_raw_score, overload_tech]
  simp [get_skill_score, profOf, experience_score_of, effective_weights, dictGet,
    hundredCandidate, overloadProject]
  norm_num

/-- Counterexample for C1 as stated: with each weight at 1 (each inside the
schema's [0, 1] range) and a candidate at 100 on every component, the
returned raw score is 400 — the raw score is not clamped to [0, 100]. -/
theorem raw_score_exceeds_100 :
    (calculate_match hundredCandidate overloadProject).raw_score = 400 ∧
    ¬((calculate_match hundredCandidate overloadProject).raw_score ≤ 100) := by
  have h : (calculate_match hundredCandidate overloadProject).raw_score = 400 := by
    rw [cm_raw, overload_raw]
    norm_num [round2, round_eq]
  exact ⟨h, by rw [h]; norm_num⟩

/-- A project with no requirements and integer-valued weights. -/
def unitWeightsProject : Project :=
  { required_skills := [],
    weights_config := [("technical", 1), ("communication", 0),
      ("leadership", 0), ("experience", 0)],
    fairness_config := {} }

/-- Witness for the amended C1 at a concrete valid input. -/
theorem calculate_match_scores_bounded_witness :
    (0 ≤ (calculate_match noDemoCandidate unitWeightsProject).technical_score ∧
      (calculate_match noDemoCandidate unitWeightsProject).technical_score ≤ 100) ∧
    (0 ≤ (calculate_match noDemoCandidate unitWeightsProject).communication_score ∧
      (calculate_match noDemoCandidate unitWeightsProject).communication_score ≤ 100) ∧
    (0 ≤ (calculate_match noDemoCandidate unitWeightsProject).leadership_score ∧
      (calculate_match noDemoCandidate unitWeightsProject).leadership_score ≤ 100) ∧
    (0 ≤ (calculate_match noDemoCandidate unitWeightsProject).experience_score ∧
      (calculate_match noDemoCandidate unitWeightsProject).experience_score ≤ 100) ∧
    (0 ≤ (calculate_match noDemoCandidate unitWeightsProject).final_score ∧
      (calculate_match noDemoCandidate unitWeightsProject).final_score ≤ 100) ∧
    0 ≤ (calculate_match noDemoCandidate unitWeightsProject).raw_score ∧
    (dictGet (effective_weights unitWeightsProject none) "technical" 0.6
        + dictGet (effective_weights unitWeightsProject none) "communication" 0.2
        + dictGet (effective_weights unitWeightsProject none) "leadership" 0.1
        + dictGet (effective_weights unitWeightsProject none) "experience" 0.1 ≤ 1 →
      (calculate_match noDemoCandidate unitWeightsProject).raw_score ≤ 100) :=
  calculate_match_scores_bounded noDemoCandidate unitWeightsProject none none
    (by simp [noDemoCandidate])
    (by simp [noDemoCandidate])
    (by simp [unitWeightsProject])
    (Or.inl rfl)
    (by simp [dictGet, effective_weights, unitWeightsProject])
    (by simp [dictGet, effective_weights, unitWeightsProject])
    (by simp [dictGet, effective_weights, unitWeightsProject])
    (by simp [dictGet, effective_weights, unitWeightsProject])

/-- A project with one requirement whose association row is missing: no
required level and no resolvable weight. -/
def defaultsProject : Project :=
  { required_skills := [{ name := "Rust", required_level := none, weight := none }],
    weights_config := [], fairness_config := {} }

/-- The intended defaulting behavior behind C7 (modelled semantics — the
shipped module cannot run at all, see the corresponding finding): a missing
requirement row defaults the required level to 80, an unresolvable weight
defaults to 1.0, an absent proficiency record contributes 0, and scoring
completes. -/
theorem missing_data_defaults :
    build_requirement_vector defaultsProject = [("Rust", 80)] ∧
    skillWeight defaultsProject "Rust" = 1 ∧
    build_candidate_vector noDemoCandidate defaultsProject = [("Rust", 0)] ∧
    (calculate_match noDemoCandidate defaultsProject).technical_score = 0 := by
  have h1 : build_requirement_vector defaultsProject = [("Rust", 80)] := by
    simp [build_requirement_vector, defaultsProject]
  have h2 : skillWeight defaultsProject "Rust" = 1 := by
    simp [skillWeight, defaultsProject]
  have h3 : build_candidate_vector noDemoCandidate defaultsProject = [("Rust", 0)] := by
    simp [build_candidate_vector, profOf, noDemoCandidate, defaultsProject]
  have h4 : technical_pairs noDemoCandidate defaultsProject = [(0, 1)] := by
    rw [technical_pairs, h1, h3]
    simp [vecGet, skillScore, h2]
  refine ⟨h1, h2, h3, ?_⟩
  rw [cm_technical, calculate_technical_score, h4]
  norm_num [round2, round_eq]
